import Mathlib

/-!
Verification development for the py-gcmi execution pipeline.

This file shallowly embeds the middleware composition core of the repository
(`gcmi/middleware/core.py`, `gcmi/middleware/requirements.py`,
`gcmi/utils/requirements.py`, `gcmi/core/api.py`, `gcmi/drivers/minimal.py`)
and proves properties of the embedded definitions.

Modelling conventions:
- Python floats are modelled as exact rationals (`ℚ`); the properties below are
  control-flow and bookkeeping properties in which every arithmetic step of the
  source (multiplication, division, ceiling) is exact at the inputs considered.
- Python dicts are modelled as ordered association lists (`PDict`), matching
  insertion-order semantics: updating an existing key keeps its position,
  a fresh key is appended.
- Mutation of the shared `params` dict is modelled by explicit state passing:
  an embedded step returns, next to its `(state, diag)` result, the value the
  `params` dict holds after the call.  Code that never writes `params`
  therefore returns it unchanged.
- Exceptions are modelled with `Except`; the Python exception classes that the
  embedded code distinguishes (`TypeError` vs anything else) are the
  constructors of `PyErr`.
-/

namespace Gcmi

/-- Embedded runtime values (the subset of Python values the checked code
inspects).  String-to-float coercion (`float("2.5")`) is not modelled; the
claims under study never exercise it. -/
inductive Value where
  | vint (n : ℤ)
  | vfloat (q : ℚ)
  | vstr (s : String)
  | vbool (b : Bool)
  | vnone
  | vmap (entries : List (String × Value))
deriving Repr

/-- Ordered association list standing for a Python dict. -/
abbrev PDict := List (String × Value)

/-- Dict lookup (`d.get(k)` / `k in d`). -/
def dictGet (d : PDict) (k : String) : Option Value :=
  (d.find? (fun p => p.1 == k)).map (fun p => p.2)

/-- Dict update (`d[k] = v`): an existing key keeps its position, a fresh key
is appended (Python insertion-order semantics). -/
def dictSet (d : PDict) (k : String) (v : Value) : PDict :=
  if (d.find? (fun p => p.1 == k)).isSome then
    d.map (fun p => if p.1 == k then (k, v) else p)
  else
    d ++ [(k, v)]

/-- Python `float(x)` on an embedded value; `none` models the conversion
raising.  `bool` converts because Python bools are ints. -/
def pyFloat (v : Value) : Option ℚ :=
  match v with
  | .vint n => some (n : ℚ)
  | .vfloat q => some q
  | .vbool b => some (if b then 1 else 0)
  | _ => none

/-- Container tag of a requirement (the literal type `Where` in
`gcmi/utils/requirements.py`). -/
inductive WhereTag where
  | state
  | params
  | forcing
deriving Repr, DecidableEq

/-- Rendering of a `WhereTag` as in the source literals. -/
def whereName : WhereTag → String
  | .state => "state"
  | .params => "params"
  | .forcing => "forcing"

/-- Severity of a requirement / violation. -/
inductive Severity where
  | error
  | warn
deriving Repr, DecidableEq

/-- Upper-case rendering used by `RequirementError` (`v.severity.upper()`). -/
def severityUpper : Severity → String
  | .error => "ERROR"
  | .warn => "WARN"

/-- Embedded Python type tags for `isinstance` checks. -/
inductive PyType where
  | intT
  | floatT
  | strT
  | boolT
  | dictT
  | noneT
deriving Repr, DecidableEq

/-- Python `isinstance(v, t)` for a single type; a bool is an instance of
`int` (bool subclasses int). -/
def isinstanceOf (v : Value) (t : PyType) : Bool :=
  match v, t with
  | .vint _, .intT => true
  | .vfloat _, .floatT => true
  | .vbool _, .boolT => true
  | .vbool _, .intT => true
  | .vstr _, .strT => true
  | .vmap _, .dictT => true
  | .vnone, .noneT => true
  | _, _ => false

/-- Python `isinstance(v, ts)` against a type or tuple of types (modelled as a
list of tags). -/
def isinstanceAny (v : Value) (ts : List PyType) : Bool :=
  ts.any (isinstanceOf v)

/-- Embedding of `Requirement` (`gcmi/utils/requirements.py`).  The optional
predicate returns `Except`: an `error` result models the predicate raising. -/
structure Requirement where
  whereTag : WhereTag
  path : String
  required : Bool := true
  type : Option (List PyType) := none
  predicate : Option (Value → Except String Bool) := none
  message : Option String := none
  severity : Severity := .error

/-- Embedding of `Violation` (`gcmi/utils/requirements.py`). -/
structure Violation where
  whereTag : WhereTag
  path : String
  severity : Severity
  message : String
  requirement : Requirement

/-- Embedding of the aggregated `RequirementError`. -/
structure RequirementError where
  violations : List Violation

/-- Message built by `RequirementError.__init__`: a header plus one line per
violation, `[SEVERITY] container.path: message`, newline-joined. -/
def RequirementError.msg (e : RequirementError) : String :=
  "Requirements not satisfied:\n" ++
    String.intercalate "\n"
      (e.violations.map (fun v =>
        "[" ++ severityUpper v.severity ++ "] " ++ whereName v.whereTag ++ "." ++
          v.path ++ ": " ++ v.message))

/-- Entry of the record appended under `diag["gcmi_requirements"]`
(`{"where": v.where, "path": v.path, "message": v.message}`). -/
structure ReqViolationEntry where
  whereTag : WhereTag
  path : String
  message : String
deriving Repr

/-- Record appended under `diag["gcmi_requirements"]` by the
requirements-check middleware. -/
structure ReqRecord where
  call : ℕ
  max_checks : ℤ
  checked : ℕ
  errors : List ReqViolationEntry
  warnings : List ReqViolationEntry
deriving Repr

/-- Middleware metadata records appended under `diag["gcmi_mw"]`, one
constructor per middleware in `gcmi/middleware/core.py` that this development
embeds.  The single-step branch of the CFL guard appends a record without
`dt_sub` (`none` here); the substepping branch includes it. -/
inductive MwMeta where
  | cfl_guard (cfl : ℚ) (n_substeps : ℤ) (vmax dx dt : ℚ) (dt_sub : Option ℚ)
  | flux_limiter (scheme : String) (vars : List String)
  | positivity (vars : List String) (lower : ℚ) (conserve : Option String)
deriving Repr

/-- Name field of a middleware metadata record (`{"name": name, **meta}`). -/
def MwMeta.mwName : MwMeta → String
  | .cfl_guard .. => "cfl_guard"
  | .flux_limiter .. => "flux_limiter"
  | .positivity .. => "positivity"

/-- Field `n_substeps` of a metadata record, when present. -/
def MwMeta.nSubstepsField : MwMeta → Option ℤ
  | .cfl_guard _ n _ _ _ _ => some n
  | _ => none

/-- Embedded `Diag` dict.  The keys the checked code reads or writes
(`gcmi_mw`, `gcmi_requirements`, `timings`) are explicit fields, with `none`
standing for an absent key; every other entry is carried opaquely in `rest`. -/
structure Diag where
  gcmi_mw : Option (List MwMeta) := none
  gcmi_requirements : Option (List ReqRecord) := none
  timings : Option PDict := none
  rest : PDict := []
deriving Repr

/-- Fresh empty diag (`{}` in the source). -/
def emptyDiag : Diag := {}

/-- Embedding of `_append_mw_meta`
(`diag.setdefault("gcmi_mw", []).append({...})`). -/
def append_mw_meta (dg : Diag) (m : MwMeta) : Diag :=
  { dg with gcmi_mw := some ((dg.gcmi_mw.getD []) ++ [m]) }

/-- Step-function type of the embedding.  The third component of the result is
the content of the `params` dict after the call (explicit-state model of
possible mutation of the shared dict). -/
def StepFn (S F : Type) : Type :=
  S → F → PDict → ℚ → S × Diag × PDict

/-- Embedding of the `dx` resolution in `with_cfl_guard`:
`params['grid']['dx_min']` if present and float-convertible, else `1.0`
(every exception path of the source `try` block yields the default). -/
def resolve_dx (params : PDict) : ℚ :=
  match (dictGet params "grid").getD (.vmap []) with
  | .vmap g =>
      match dictGet g "dx_min" with
      | some v => (pyFloat v).getD 1
      | none => 1
  | _ => 1

/-- Substepping loop of `with_cfl_guard`:
`for _ in range(n): st, last_diag = step(st, forcing, params, dt_sub)`.
Each iteration feeds the produced state (and the params dict contents) into
the next and overwrites the remembered diag, so only the last survives;
the third argument is the initial `last_diag` binding (`{}` in the source). -/
def cflSubstepLoop {S F : Type} (step : StepFn S F) (forcing : F) (dt_sub : ℚ) :
    ℕ → S → Diag → PDict → S × Diag × PDict
  | 0, st, last_diag, p => (st, last_diag, p)
  | n + 1, st, _, p =>
      let r := step st forcing p dt_sub
      cflSubstepLoop step forcing dt_sub n r.1 r.2.1 r.2.2

/-- Embedding of `with_cfl_guard` (`gcmi/middleware/core.py`).  The wave-speed
callback reads the current state and params (the opaque backend handle is not
modelled).  Note the source computes `cfl = 0.0 if dx == 0 else vmax*dt/dx`
and short-circuits to a single full step when
`cfl <= cfl_max or dx == 0 or vmax == 0 or dt == 0`. -/
def with_cfl_guard {S F : Type} (cfl_max : ℚ) (wave_speed_cb : S → PDict → ℚ)
    (step : StepFn S F) : StepFn S F :=
  fun state forcing params dt =>
    let vmax := wave_speed_cb state params
    let dx := resolve_dx params
    let cfl := if dx = 0 then 0 else vmax * dt / dx
    if cfl ≤ cfl_max ∨ dx = 0 ∨ vmax = 0 ∨ dt = 0 then
      let r := step state forcing params dt
      (r.1, append_mw_meta r.2.1 (.cfl_guard cfl 1 vmax dx dt none), r.2.2)
    else
      let n_sub : ℤ := max 1 ⌈cfl / cfl_max⌉
      let dt_sub : ℚ := if 0 < n_sub then dt / (n_sub : ℚ) else dt
      let r := cflSubstepLoop step forcing dt_sub n_sub.toNat state emptyDiag params
      (r.1, append_mw_meta r.2.1 (.cfl_guard cfl n_sub vmax dx dt (some dt_sub)), r.2.2)

/-- Pure state/params iteration of a step at a fixed timestep: the sequence of
`(state, params)` pairs produced by calling `step` repeatedly, feeding each
output into the next call. -/
def iterState {S F : Type} (step : StepFn S F) (forcing : F) (dt_sub : ℚ) :
    ℕ → S × PDict → S × PDict
  | 0, sp => sp
  | n + 1, sp =>
      let r := step sp.1 forcing sp.2 dt_sub
      iterState step forcing dt_sub n (r.1, r.2.2)

/-- Intended outcome of `n ≥ 1` sequential substep invocations: the state and
params after all `n` calls, together with the diag of the last call only. -/
def substepOutcome {S F : Type} (step : StepFn S F) (forcing : F) (dt_sub : ℚ)
    (n : ℕ) (state : S) (params : PDict) : S × Diag × PDict :=
  let sp := iterState step forcing dt_sub (n - 1) (state, params)
  let r := step sp.1 forcing sp.2 dt_sub
  (r.1, r.2.1, r.2.2)

/-- Last middleware-metadata record of a diag, if any. -/
def lastMwMeta (dg : Diag) : Option MwMeta :=
  (dg.gcmi_mw.getD []).getLast?

/-- Identity step on trivial state used to instantiate universally quantified
theorems on concrete inputs. -/
def idStepU : StepFn Unit Unit := fun s _ p _ => (s, emptyDiag, p)

/-- Failure of `_get_path`; both constructors are raised as `KeyError` in the
source but with distinguishable messages (non-mapping segment vs missing
key). -/
inductive PathErr where
  | nonMapping (path seg tyName : String)
  | missingKey (path seg : String)
deriving Repr, DecidableEq

/-- Python type name of an embedded value (`type(cur).__name__`). -/
def pyTypeName : Value → String
  | .vint _ => "int"
  | .vfloat _ => "float"
  | .vstr _ => "str"
  | .vbool _ => "bool"
  | .vnone => "NoneType"
  | .vmap _ => "dict"

/-- Message carried by the `KeyError` of `_get_path` for each failure kind
(`\x27` is the ASCII apostrophe appearing in the source f-strings). -/
def pathErrMsg : PathErr → String
  | .nonMapping path seg tyName =>
      "Path \x27" ++ path ++ "\x27 invalid: segment \x27" ++ seg ++
        "\x27 encountered non-mapping type " ++ tyName
  | .missingKey path seg =>
      "Missing key \x27" ++ seg ++ "\x27 while resolving \x27" ++ path ++ "\x27"

/-- Python `str(KeyError(m))` is `repr(m)`; the messages above contain
apostrophes and no double quote, so the repr wraps them in double quotes. -/
def strKeyError (m : String) : String := "\"" ++ m ++ "\""

/-- Loop body of `_get_path`: for each segment, first require the current
value to be a mapping, then index it. -/
def get_path_go (path : String) : Value → List String → Except PathErr Value
  | cur, [] => .ok cur
  | cur, seg :: rest =>
      match cur with
      | .vmap entries =>
          match dictGet entries seg with
          | some v => get_path_go path v rest
          | none => .error (.missingKey path seg)
      | other => .error (.nonMapping path seg (pyTypeName other))

/-- Split of a character list at every dot, matching Python
`str.split(".")`: the empty string gives `[""]`, adjacent separators give
empty fields.  (A direct structural recursion is used so the definition
evaluates inside the kernel.) -/
def splitOnDotAux : List Char → List (List Char)
  | [] => [[]]
  | c :: rest =>
      match splitOnDotAux rest with
      | [] => [[c]]
      | h :: t => if c = '.' then [] :: h :: t else (c :: h) :: t

/-- Embedding of `path.split(".")`. -/
def splitDots (s : String) : List String :=
  (splitOnDotAux s.data).map (fun cs => ⟨cs⟩)

/-- Embedding of `_get_path` (`gcmi/utils/requirements.py`): resolve a dotted
path by repeated key lookup, starting from the container mapping. -/
def get_path (d : PDict) (path : String) : Except PathErr Value :=
  get_path_go path (.vmap d) (splitDots path)

/-- Container selection of `validate_requirements` (`get_container`). -/
def get_container (state params forcing : Option PDict) :
    WhereTag → Option PDict
  | .state => state
  | .params => params
  | .forcing => forcing

/-- Python repr of a type tag (`<class \x27int\x27>` etc.), used in the
default type-mismatch message. -/
def pyTypeRepr : PyType → String
  | .intT => "<class \x27int\x27>"
  | .floatT => "<class \x27float\x27>"
  | .strT => "<class \x27str\x27>"
  | .boolT => "<class \x27bool\x27>"
  | .dictT => "<class \x27dict\x27>"
  | .noneT => "<class \x27NoneType\x27>"

/-- Rendering of the requirement's type constraint in the default mismatch
message (a lone type renders bare, a tuple renders parenthesized). -/
def typesRepr : List PyType → String
  | [t] => pyTypeRepr t
  | ts => "(" ++ String.intercalate ", " (ts.map pyTypeRepr) ++ ")"

/-- Predicate step of the validator: evaluate the optional predicate on the
resolved value; a raising predicate is itself a violation. -/
def checkValuePredicate (r : Requirement) (value : Value) : Option Violation :=
  match r.predicate with
  | none => none
  | some pred =>
      match pred value with
      | .error e =>
          some ⟨r.whereTag, r.path, r.severity,
            r.message.getD ("Predicate raised: " ++ e), r⟩
      | .ok true => none
      | .ok false =>
          some ⟨r.whereTag, r.path, r.severity,
            r.message.getD "Predicate returned False", r⟩

/-- Per-requirement body of the `validate_requirements` loop.  Each
requirement produces at most one violation: an absent (None) container is
always reported; a failed path resolution is reported only when the
requirement is marked required; then the optional type constraint and the
optional predicate are checked in order. -/
def checkRequirement (state params forcing : Option PDict) (r : Requirement) :
    Option Violation :=
  match get_container state params forcing r.whereTag with
  | none =>
      some ⟨r.whereTag, r.path, r.severity,
        "Container \x27" ++ whereName r.whereTag ++
          "\x27 is None; cannot check path \x27" ++ r.path ++ "\x27", r⟩
  | some c =>
      match get_path c r.path with
      | .error e =>
          if r.required then
            some ⟨r.whereTag, r.path, r.severity,
              r.message.getD (strKeyError (pathErrMsg e)), r⟩
          else
            none
      | .ok value =>
          match r.type with
          | some ts =>
              if isinstanceAny value ts then
                checkValuePredicate r value
              else
                some ⟨r.whereTag, r.path, r.severity,
                  r.message.getD ("Expected type " ++ typesRepr ts ++ ", got " ++
                    pyTypeName value), r⟩
          | none => checkValuePredicate r value

/-- Embedding of `validate_requirements` (`gcmi/utils/requirements.py`):
partition the per-requirement violations into `(errors, warnings)` by the
requirement's severity, preserving check order. -/
def validate_requirements (state params forcing : Option PDict)
    (requirements : List Requirement) : List Violation × List Violation :=
  requirements.foldl
    (fun acc r =>
      match checkRequirement state params forcing r with
      | none => acc
      | some v =>
          if r.severity = .error then (acc.1 ++ [v], acc.2)
          else (acc.1, acc.2 ++ [v]))
    ([], [])


/-- Configuration of `with_requirements_check` (keyword arguments of the
wrapper factory). -/
structure ReqCheckCfg where
  extra : List Requirement := []
  max_checks : ℤ := 3
  raise_on_error : Bool := true
  record_warnings : Bool := true

/-- Step type used by the requirements-check middleware: state and forcing
are runtime containers that may be a dict or None, params is the shared dict
(threaded, as in `StepFn`). -/
def RStepFn : Type :=
  Option PDict → Option PDict → PDict → ℚ → Option PDict × Diag × PDict

/-- Embedding of
`diag.setdefault("gcmi_requirements", []).append(record)`. -/
def append_req_record (dg : Diag) (rec : ReqRecord) : Diag :=
  { dg with gcmi_requirements := some ((dg.gcmi_requirements.getD []) ++ [rec]) }

/-- Structured entries copied into the diag record
(`{"where": v.where, "path": v.path, "message": v.message}`). -/
def violationEntries (vs : List Violation) : List ReqViolationEntry :=
  vs.map (fun v => ⟨v.whereTag, v.path, v.message⟩)

/-- Record appended by the requirements-check middleware on a checked call
that found errors or warnings. -/
def mkReqRecord (call_count : ℕ) (cfg : ReqCheckCfg) (reqs : List Requirement)
    (errors warns : List Violation) : ReqRecord :=
  ⟨call_count, cfg.max_checks, reqs.length,
    violationEntries errors, violationEntries warns⟩

/-- Embedding of one invocation of the wrapper produced by
`with_requirements_check` (`gcmi/middleware/requirements.py`).

The wrapper closes over a private counter `call_count`; the embedding passes
the counter in and returns the updated counter next to the outcome.  The
requirements attached to the wrapped callable are retrieved in the source via
`get_requirements(step)`; Lean functions carry no attributes, so the
retrieved sequence is the explicit argument `step_reqs` (the attribute walk
itself is modelled separately on `Link` values, see `get_requirements`).
An `Except.error` outcome models the `RequirementError` raise; the counter
is incremented exactly once on every path, as in the source. -/
def with_requirements_check (step : RStepFn) (step_reqs : List Requirement)
    (cfg : ReqCheckCfg) (call_count : ℕ) (state forcing : Option PDict)
    (params : PDict) (dt : ℚ) :
    ℕ × Except RequirementError (Option PDict × Diag × PDict) :=
  if (call_count : ℤ) < cfg.max_checks then
    -- should_check: retrieve requirements and validate when any exist
    let reqs := step_reqs ++ cfg.extra
    if reqs.isEmpty then
      let r := step state forcing params dt
      (call_count + 1, .ok (r.1, r.2.1, r.2.2))
    else
      let ew := validate_requirements state (some params) forcing reqs
      if !ew.1.isEmpty && cfg.raise_on_error then
        -- increment call_count, then raise RequirementError(errors)
        (call_count + 1, .error ⟨ew.1⟩)
      else
        let r := step state forcing params dt
        let diag :=
          if cfg.record_warnings && (!ew.1.isEmpty || !ew.2.isEmpty) then
            append_req_record r.2.1 (mkReqRecord call_count cfg reqs ew.1 ew.2)
          else r.2.1
        (call_count + 1, .ok (r.1, diag, r.2.2))
  else
    -- past max_checks: no retrieval, no validation, plain delegation
    let r := step state forcing params dt
    (call_count + 1, .ok (r.1, r.2.1, r.2.2))



/-- Trivial concrete step used to instantiate requirements-middleware
theorems. -/
def rstepId : RStepFn := fun s _ p _ => (s, emptyDiag, p)

/-- Predicate `lambda r: r > 0` of the spec example; comparing a non-numeric
value raises in Python, modelled by the `error` result. -/
def radiusPositive : Value → Except String Bool
  | .vint n => .ok (decide (0 < n))
  | .vfloat q => .ok (decide (0 < q))
  | _ => .error "unsupported operand"

/-- The spec example requirement: `params.spectral.radius`, numeric,
positive. -/
def radiusReq : Requirement :=
  ⟨.params, "spectral.radius", true, some [.intT, .floatT],
    some radiusPositive, none, .error⟩



/-- A Python callable carrying the attributes the requirements registry uses:
its identity (`id()`), its `__gcmi_requires__` tuple (absent modelled as the
empty list, which the source treats identically), and its `__wrapped__`
back-reference (by identity). -/
structure Link where
  id : ℕ
  gcmi_requires : List Requirement := []
  wrappedId : Option ℕ := none

/-- Identity-based dereference of a link in a heap of callables. -/
def lookupLink (heap : List Link) (i : ℕ) : Option Link :=
  heap.find? (fun l => l.id == i)

/-- Embedding of the `requires(*reqs)` decorator
(`gcmi/utils/requirements.py`): append to the existing
`__gcmi_requires__` tuple (empty when absent). -/
def requires (reqs : List Requirement) (l : Link) : Link :=
  { l with gcmi_requires := l.gcmi_requires ++ reqs }

/-- Loop of `get_requirements`: `while cur is not None and id(cur) not in
seen`, add the id to `seen`, extend the accumulator with the link's attached
requirements, follow `__wrapped__`.  The fuel argument only bounds the
recursion; `heap.length + 1` units are enough for any walk because each
iteration consumes a distinct heap id. -/
def get_requirements_go (heap : List Link) :
    ℕ → Option ℕ → List ℕ → List Requirement → List Requirement
  | 0, _, _, acc => acc
  | _ + 1, none, _, acc => acc
  | fuel + 1, some i, seen, acc =>
      if seen.contains i then acc
      else
        match lookupLink heap i with
        | none => acc
        | some l =>
            get_requirements_go heap fuel l.wrappedId (i :: seen)
              (acc ++ l.gcmi_requires)

/-- Embedding of `get_requirements` (`gcmi/utils/requirements.py`): walk the
`__wrapped__` chain from the given callable, collecting attached requirements
in encounter order, stopping at a missing back-reference or an
already-visited link. -/
def get_requirements (heap : List Link) (i : ℕ) : List Requirement :=
  get_requirements_go heap (heap.length + 1) (some i) [] []

/-- Proposition that a list of links forms a `__wrapped__` chain whose last
link's back-reference is `t`. -/
def isChain : List Link → Option ℕ → Prop
  | [], _ => True
  | [l], t => l.wrappedId = t
  | l :: l2 :: rest, t => l.wrappedId = some l2.id ∧ isChain (l2 :: rest) t

/-- Requirement used by concrete registry scenarios. -/
def wreqA : Requirement := ⟨.state, "T", true, none, none, none, .error⟩

/-- Three-link straight chain with the same requirement attached at the outer
and inner links (no deduplication expected). -/
def wheapStraight : List Link :=
  [⟨0, [wreqA], some 1⟩, ⟨1, [], some 2⟩, ⟨2, [wreqA], none⟩]

/-- Two-link cyclic chain (each link wraps the other). -/
def wheapCycle : List Link :=
  [⟨5, [wreqA], some 6⟩, ⟨6, [wreqA], some 5⟩]



/-- Embedded Python exceptions, distinguished only as far as the checked code
distinguishes them: `TypeError` (caught by the observer-call fallback and
raised for malformed step returns) versus everything else. -/
inductive PyErr where
  | typeError (msg : String)
  | otherError (name msg : String)
deriving Repr, DecidableEq

/-- Raw diagnostics value returned by a driver-level step before
normalization: Python `None`, a dict, or any non-dict value. -/
inductive DiagVal where
  | pyNone
  | pyDict (d : PDict)
  | nonDict (v : Value)
deriving Repr

/-- Raw return value of a driver-level step: a 2-tuple or anything else. -/
inductive StepOut (S : Type) where
  | pair (st : S) (dg : DiagVal)
  | malformed

/-- Diag normalization of `_bind_step` (`gcmi/drivers/minimal.py`):
`None` becomes `{}`; a non-dict is wrapped as `{"diag": value}`. -/
def normalize_diag : DiagVal → PDict
  | .pyNone => []
  | .pyDict d => d
  | .nonDict v => [("diag", v)]

/-- Embedding of the adapter produced by `_bind_step`: reject a return value
that is not a 2-tuple with a `TypeError`, otherwise normalize the diag.  (The
keyword-filtering of the adapter is signature plumbing outside the core and
is not modelled; the step is called with the full argument tuple.) -/
def bind_step_call {S F : Type} (step : S → F → PDict → ℚ → StepOut S)
    (state : S) (forcing : F) (params : PDict) (dt : ℚ) :
    Except PyErr (S × PDict) :=
  match step state forcing params dt with
  | .malformed =>
      .error (.typeError "Step function must return a tuple (state, diag)")
  | .pair st dg => .ok (st, normalize_diag dg)

/-- An observer (hook).  `requiresExtra` means the callable has required
named parameters `params`/`xp` beyond the minimal three, so the minimal call
raises `TypeError` before the body runs; `acceptsExtra` means it can be
called with those keywords at all.  The body receives `none` for a minimal
call (Python default arguments) and `some params` for the richer call, and
may itself raise. -/
structure Hook (S : Type) where
  requiresExtra : Bool
  acceptsExtra : Bool
  body : ℕ → S → Diag → Option PDict → Except PyErr Unit

/-- Python call `hook(k, st, diag)`: a signature requiring the extra named
parameters fails before the body runs. -/
def callHookMinimal {S : Type} (h : Hook S) (k : ℕ) (st : S) (dg : Diag) :
    Except PyErr Unit :=
  if h.requiresExtra then
    .error (.typeError "missing required keyword-only arguments")
  else h.body k st dg none

/-- Python call `hook(k, st, diag, params=params, xp=xp)`: a signature not
accepting the extra keywords fails before the body runs. -/
def callHookRich {S : Type} (h : Hook S) (k : ℕ) (st : S) (dg : Diag)
    (params : PDict) : Except PyErr Unit :=
  if !h.acceptsExtra then
    .error (.typeError "unexpected keyword arguments")
  else h.body k st dg (some params)

/-- Embedding of the hook invocation in the run loops
(`gcmi/core/api.py` and `gcmi/drivers/minimal.py`):
`try: hook(k, st, diag)` and `except TypeError:` retry with the richer call.
Note the `except` clause matches the exception class `TypeError`, whatever
raised it. -/
def invokeHook {S : Type} (h : Hook S) (k : ℕ) (st : S) (dg : Diag)
    (params : PDict) : Except PyErr Unit :=
  match callHookMinimal h k st dg with
  | .ok u => .ok u
  | .error e =>
      match e with
      | .typeError _ => callHookRich h k st dg params
      | _ => .error e

/-- Sequential invocation of the registered hooks; the first uncaught
exception aborts the loop. -/
def runHooks {S : Type} (hooks : List (Hook S)) (k : ℕ) (st : S) (dg : Diag)
    (params : PDict) : Except PyErr Unit :=
  match hooks with
  | [] => .ok ()
  | h :: hs =>
      match invokeHook h k st dg params with
      | .error e => .error e
      | .ok _ => runHooks hs k st dg params

/-- Embedding of `(diag.setdefault("timings", {}))["step_sec"] = dur`. -/
def attachStepTiming (dg : Diag) (dur : ℚ) : Diag :=
  { dg with timings := some (dictSet (dg.timings.getD []) "step_sec" (.vfloat dur)) }

/-- Timestep resolution of the run loop:
`params.get("time", {}).get("dt", 1.0)`.  A present but non-mapping `"time"`
entry or a non-numeric `"dt"` value (which would make the Python loop fail
downstream) is not modelled and defaults to `1`; the claims under study never
exercise those. -/
def resolve_dt (params : PDict) : ℚ :=
  match dictGet params "time" with
  | some (.vmap t) =>
      match dictGet t "dt" with
      | some v => (pyFloat v).getD 1
      | none => 1
  | _ => 1

/-- Report structure of the run loop. -/
structure Report where
  per_step_sec : List ℚ
  last_diag : Option Diag

/-- Iterations of `run_fn` (`gcmi/core/api.py`): pull a forcing, call the
step, attach the measured duration under `timings.step_sec` (`dur k` models
the `perf_counter` difference of iteration `k`), append it to the report,
invoke the hooks (an uncaught hook exception propagates out of the loop), and
remember the diag as `last_diag`. -/
def run_fn_loop {S F : Type} (step : StepFn S F) (hooks : List (Hook S))
    (fstream : ℕ → F) (dt : ℚ) (dur : ℕ → ℚ) :
    ℕ → ℕ → S → PDict → List ℚ → Option Diag →
      Except PyErr (S × Report × PDict)
  | 0, _, st, p, times, last => .ok (st, ⟨times, last⟩, p)
  | n + 1, k, st, p, times, _ =>
      let r := step st (fstream k) p dt
      let dg := attachStepTiming r.2.1 (dur k)
      match runHooks hooks k r.1 dg r.2.2 with
      | .error e => .error e
      | .ok _ =>
          run_fn_loop step hooks fstream dt dur n (k + 1) r.1 r.2.2
            (times ++ [dur k]) (some dg)

/-- Embedding of `run_fn` (`gcmi/core/api.py`).  The source reads the
module-level binding `step_fn` (rebindable by callers, per its docstring);
the embedding takes the bound step as a parameter.  The forcing stream is
modelled in its callable form (`_as_iter` of a function of the iteration
index); `dur` supplies the per-iteration wall-clock durations. -/
def run_fn {S F : Type} (step : StepFn S F) (init : S) (params : PDict)
    (fstream : ℕ → F) (hooks : List (Hook S)) (n_steps : ℕ) (dur : ℕ → ℚ) :
    Except PyErr (S × Report × PDict) :=
  run_fn_loop step hooks fstream (resolve_dt params) dur n_steps 0 init params
    [] none

/-- Embedding of `with_flux_limiter` (`gcmi/middleware/core.py`): delegate
once, append one metadata record. -/
def with_flux_limiter {S F : Type} (scheme : String) (vars : List String)
    (step : StepFn S F) : StepFn S F :=
  fun state forcing params dt =>
    let r := step state forcing params dt
    (r.1, append_mw_meta r.2.1 (.flux_limiter scheme vars), r.2.2)

/-- Embedding of `with_positivity` (`gcmi/middleware/core.py`): delegate
once, clamp the listed state entries with the external operator (a failing
operator leaves the entry unchanged), append one metadata record.  The state
is the embedded dict; `clampOp` stands for `ops.grid.clamp_min` with the
backend handle applied. -/
def with_positivity {F : Type} (clampOp : Value → ℚ → Except String Value)
    (vars : List String) (lower : ℚ) (conserve : Option String)
    (step : StepFn PDict F) : StepFn PDict F :=
  fun state forcing params dt =>
    let r := step state forcing params dt
    let st2 := vars.foldl
      (fun s v =>
        match dictGet s v with
        | some x =>
            match clampOp x lower with
            | .ok y => dictSet s v y
            | .error _ => s
        | none => s) r.1
    (st2, append_mw_meta r.2.1 (.positivity vars lower conserve), r.2.2)



/-- Observer whose body raises `TypeError` on the minimal call but succeeds
when given the extra keywords; its signature accepts (but does not require)
the extras, so the minimal call is not a signature mismatch. -/
def tErrHook : Hook Unit :=
  ⟨false, true, fun _ _ _ o =>
    match o with
    | none => .error (.typeError "boom")
    | some _ => .ok ()⟩

/-- Observer that genuinely requires the extra named parameters (a signature
mismatch on the minimal call). -/
def wHookReq : Hook Unit := ⟨true, true, fun _ _ _ _ => .ok ()⟩

/-- Observer raising a non-TypeError exception from its body. -/
def wHookVal : Hook Unit :=
  ⟨false, false, fun _ _ _ _ => .error (.otherError "ValueError" "bad")⟩



/-- Identity step on dict state, for instantiating the transform
middlewares. -/
def pdStepId : StepFn PDict Unit := fun s _ p _ => (s, emptyDiag, p)


end Gcmi

open Gcmi

/-- The substepping loop run `n + 1` times equals the intended outcome:
iterate the step `n` times from the input, make one final call, and keep that
final call's diag. -/
theorem cflSubstepLoop_eq_substepOutcome {S F : Type} (step : StepFn S F)
    (f : F) (d : ℚ) :
    ∀ (n : ℕ) (st : S) (dg : Diag) (p : PDict),
      cflSubstepLoop step f d (n + 1) st dg p = substepOutcome step f d (n + 1) st p := by
  intro n
  induction n with
  | zero =>
    intro st dg p
    rfl
  | succ n ih =>
    intro st dg p
    show cflSubstepLoop step f d (n + 1) (step st f p d).1 (step st f p d).2.1
        (step st f p d).2.2 = _
    rw [ih]
    simp only [substepOutcome, Nat.add_sub_cancel]
    rfl

/-- Appending a middleware-metadata record makes it the last record of the
diag's `gcmi_mw` list. -/
theorem lastMwMeta_append (dg : Diag) (m : MwMeta) :
    lastMwMeta (append_mw_meta dg m) = some m := by
  show ((dg.gcmi_mw.getD []) ++ [m]).getLast? = some m
  rw [List.getLast?_concat]

/-- C3: if `cfl <= cfl_max`, or `dx == 0`, or `vmax == 0`, or `dt == 0`
(with `cfl` computed as in the source: `0` when `dx == 0`, else
`vmax * dt / dx`), the CFL guard invokes the wrapped step exactly once with
the original timestep `dt`, and appends exactly one metadata record, named
`"cfl_guard"` with `n_substeps = 1`, to the diagnostics returned by that
single call; in particular this holds whenever `vmax = 0` or `dt = 0`,
regardless of `cfl_max`. -/
theorem c3_cfl_guard_single_step {S F : Type} (step : StepFn S F)
    (cb : S → PDict → ℚ) (cfl_max : ℚ) (state : S) (forcing : F)
    (params : PDict) (dt vmax dx cfl : ℚ)
    (hv : vmax = cb state params) (hdx : dx = resolve_dx params)
    (hcfl : cfl = if dx = 0 then 0 else vmax * dt / dx)
    (hbranch : cfl ≤ cfl_max ∨ dx = 0 ∨ vmax = 0 ∨ dt = 0) :
    with_cfl_guard cfl_max cb step state forcing params dt =
      ((step state forcing params dt).1,
        append_mw_meta (step state forcing params dt).2.1
          (.cfl_guard cfl 1 vmax dx dt none),
        (step state forcing params dt).2.2) ∧
    (with_cfl_guard cfl_max cb step state forcing params dt).2.1.gcmi_mw =
      some (((step state forcing params dt).2.1.gcmi_mw.getD []) ++
        [.cfl_guard cfl 1 vmax dx dt none]) ∧
    (lastMwMeta (with_cfl_guard cfl_max cb step state forcing params dt).2.1).map
        MwMeta.mwName = some "cfl_guard" ∧
    (lastMwMeta (with_cfl_guard cfl_max cb step state forcing params dt).2.1).bind
        MwMeta.nSubstepsField = some 1 := by
  subst hv hdx hcfl
  have hmain : with_cfl_guard cfl_max cb step state forcing params dt =
      ((step state forcing params dt).1,
        append_mw_meta (step state forcing params dt).2.1
          (.cfl_guard (if resolve_dx params = 0 then 0
            else cb state params * dt / resolve_dx params) 1 (cb state params)
            (resolve_dx params) dt none),
        (step state forcing params dt).2.2) := by
    unfold with_cfl_guard
    rw [if_pos hbranch]
  refine ⟨hmain, ?_, ?_, ?_⟩ <;> rw [hmain]
  · rfl
  · rw [lastMwMeta_append]
    rfl
  · rw [lastMwMeta_append]
    rfl

/-- C3 witness: with `vmax = 0`, `dt = 1` and `cfl_max = -5` (a configuration
where `cfl = 0` exceeds no bound test but `vmax == 0` short-circuits), the
guard performs a single full step whose recorded `n_substeps` is `1`. -/
theorem c3_cfl_guard_single_step_witness :
    ((0 : ℚ) ≤ (-5 : ℚ) ∨ (1 : ℚ) = 0 ∨ (0 : ℚ) = 0 ∨ (1 : ℚ) = 0) ∧
    (lastMwMeta (with_cfl_guard (-5) (fun _ _ => (0 : ℚ)) idStepU () () [] 1).2.1).bind
        MwMeta.nSubstepsField = some 1 :=
  ⟨by norm_num,
    (c3_cfl_guard_single_step idStepU (fun _ _ => 0) (-5) () () [] 1 0 1 0
      rfl rfl (by norm_num) (by norm_num)).2.2.2⟩

/-- Substepping branch of the CFL guard: when the short-circuit condition is
false, the wrapper equals `n_sub` sequential substep invocations at
`dt_sub = dt / n_sub` with the metadata record appended to the last substep's
diag. -/
theorem with_cfl_guard_substep_branch {S F : Type} (step : StepFn S F)
    (cb : S → PDict → ℚ) (cfl_max : ℚ) (state : S) (forcing : F)
    (params : PDict) (dt vmax dx cfl : ℚ) (n_sub : ℤ) (dt_sub : ℚ)
    (hv : vmax = cb state params) (hdx : dx = resolve_dx params)
    (hcfl : cfl = if dx = 0 then 0 else vmax * dt / dx)
    (hns : n_sub = max 1 ⌈cfl / cfl_max⌉)
    (hds : dt_sub = dt / (n_sub : ℚ))
    (hgt : ¬ cfl ≤ cfl_max) (hdx0 : dx ≠ 0) (hv0 : vmax ≠ 0) (hdt0 : dt ≠ 0) :
    with_cfl_guard cfl_max cb step state forcing params dt =
      ((substepOutcome step forcing dt_sub n_sub.toNat state params).1,
        append_mw_meta
          (substepOutcome step forcing dt_sub n_sub.toNat state params).2.1
          (.cfl_guard cfl n_sub vmax dx dt (some dt_sub)),
        (substepOutcome step forcing dt_sub n_sub.toNat state params).2.2) := by
  have hpos : (0 : ℤ) < n_sub := by
    rw [hns]
    exact lt_of_lt_of_le one_pos (le_max_left _ _)
  obtain ⟨m, hm⟩ : ∃ m, n_sub.toNat = m + 1 := ⟨n_sub.toNat - 1, by omega⟩
  subst hv hdx hcfl
  have hcond : ¬ ((if resolve_dx params = 0 then 0
      else cb state params * dt / resolve_dx params) ≤ cfl_max ∨
      resolve_dx params = 0 ∨ cb state params = 0 ∨ dt = 0) := by
    push_neg
    exact ⟨lt_of_not_le hgt, hdx0, hv0, hdt0⟩
  simp only [with_cfl_guard]
  rw [if_neg hcond, ← hns, if_pos hpos, ← hds, hm,
    cflSubstepLoop_eq_substepOutcome, ← hm]

/-- C1 (amended): when the short-circuit does not apply (`cfl > cfl_max`,
`dx ≠ 0`, `vmax ≠ 0`, `dt ≠ 0`) and `cfl_max ≠ 0` (at `cfl_max = 0` the
source raises `ZeroDivisionError` instead), the guard invokes the wrapped
step `n_sub = max 1 ⌈cfl / cfl_max⌉` times sequentially with timestep
`dt_sub = dt / n_sub`, feeding each substep's output state (and params) into
the next and keeping only the last substep's diagnostics, and the metadata
record appended to that diagnostics reports `n_substeps = n_sub`; `n_sub ≥ 2`
is guaranteed when `cfl_max > 0` (not for `cfl_max < 0`, see the
counterexample). -/
theorem c1_cfl_guard_substepping {S F : Type} (step : StepFn S F)
    (cb : S → PDict → ℚ) (cfl_max : ℚ) (state : S) (forcing : F)
    (params : PDict) (dt vmax dx cfl : ℚ) (n_sub : ℤ) (dt_sub : ℚ)
    (hv : vmax = cb state params) (hdx : dx = resolve_dx params)
    (hcfl : cfl = if dx = 0 then 0 else vmax * dt / dx)
    (hns : n_sub = max 1 ⌈cfl / cfl_max⌉)
    (hds : dt_sub = dt / (n_sub : ℚ))
    (hgt : ¬ cfl ≤ cfl_max) (hdx0 : dx ≠ 0) (hv0 : vmax ≠ 0) (hdt0 : dt ≠ 0)
    (_hcm0 : cfl_max ≠ 0) :
    with_cfl_guard cfl_max cb step state forcing params dt =
      ((substepOutcome step forcing dt_sub n_sub.toNat state params).1,
        append_mw_meta
          (substepOutcome step forcing dt_sub n_sub.toNat state params).2.1
          (.cfl_guard cfl n_sub vmax dx dt (some dt_sub)),
        (substepOutcome step forcing dt_sub n_sub.toNat state params).2.2) ∧
    1 ≤ n_sub ∧
    (0 < cfl_max → 2 ≤ n_sub) ∧
    (lastMwMeta (with_cfl_guard cfl_max cb step state forcing params dt).2.1).bind
        MwMeta.nSubstepsField = some n_sub := by
  have hmain := with_cfl_guard_substep_branch step cb cfl_max state forcing
    params dt vmax dx cfl n_sub dt_sub hv hdx hcfl hns hds hgt hdx0 hv0 hdt0
  have hone : (1 : ℤ) ≤ n_sub := by
    rw [hns]
    exact le_max_left _ _
  have htwo : 0 < cfl_max → 2 ≤ n_sub := by
    intro hcm
    have hlt : (1 : ℚ) < cfl / cfl_max := by
      rw [one_lt_div hcm]
      exact lt_of_not_le hgt
    have hceil : (1 : ℤ) < ⌈cfl / cfl_max⌉ := by
      rw [Int.lt_ceil]
      exact_mod_cast hlt
    rw [hns]
    exact le_trans (by omega) (le_max_right _ _)
  exact ⟨hmain, hone, htwo, by rw [hmain, lastMwMeta_append]; rfl⟩

/-- C1 witness: the canonical configuration `wave_speed = 10`,
`dx_min = 1.0`, `dt = 1.0`, `cfl_max = 0.5` gives `cfl = 10 > 0.5` and the
recorded `n_substeps` equals `20`. -/
theorem c1_cfl_guard_substepping_witness :
    (¬ ((10 : ℚ) ≤ (1 / 2 : ℚ))) ∧
    (lastMwMeta (with_cfl_guard (1 / 2) (fun _ _ => (10 : ℚ)) idStepU () ()
        [("grid", .vmap [("dx_min", .vfloat 1)])] 1).2.1).bind
      MwMeta.nSubstepsField = some 20 := by
  have h20 : (20 : ℤ) = max 1 ⌈(10 : ℚ) / (1 / 2 : ℚ)⌉ := by
    rw [show ((10 : ℚ) / (1 / 2 : ℚ)) = ((20 : ℤ) : ℚ) by norm_num,
      Int.ceil_intCast]
    decide
  have h := c1_cfl_guard_substepping idStepU (fun _ _ => 10) (1 / 2) () ()
    [("grid", .vmap [("dx_min", .vfloat 1)])] 1 10 1 10 20 (1 / 20)
    rfl rfl (by norm_num) h20 (by norm_num)
    (by norm_num) (by norm_num) (by norm_num) (by norm_num) (by norm_num)
  exact ⟨by norm_num, h.2.2.2⟩

/-- C1 counterexample: with `cfl_max = -1`, `vmax = 1`, `dx = 1`, `dt = 1` the
invocation has `cfl = 1 > cfl_max = -1` and does not short-circuit, yet the
recorded `n_substeps` is `1` (the `max(1, ceil(cfl / cfl_max))` floor), not
`≥ 2` — refuting the claim's final clause as stated. -/
theorem c1_cfl_guard_substepping_cex :
    (¬ ((1 : ℚ) ≤ (-1 : ℚ))) ∧ ((1 : ℚ) ≠ 0) ∧
    (lastMwMeta (with_cfl_guard (-1) (fun _ _ => (1 : ℚ)) idStepU () () [] 1).2.1).bind
      MwMeta.nSubstepsField = some 1 := by
  refine ⟨by norm_num, by norm_num, ?_⟩
  have hns : (1 : ℤ) = max 1 ⌈(1 : ℚ) / (-1 : ℚ)⌉ := by
    rw [show ((1 : ℚ) / (-1 : ℚ)) = ((-1 : ℤ) : ℚ) by norm_num,
      Int.ceil_intCast]
    decide
  have h := with_cfl_guard_substep_branch idStepU (fun _ _ => 1) (-1) () ()
    [] 1 1 1 1 1 1 rfl rfl (by norm_num) hns (by norm_num)
    (by norm_num) (by norm_num) (by norm_num) (by norm_num)
  rw [h, lastMwMeta_append]
  rfl

/-- C5: the validator always reports an absent (None) target container at the
requirement's own severity, even for a requirement marked not required; a
present container whose dotted path has a missing segment is reported only
when the requirement is marked required, and silently skipped otherwise.
The third conjunct ties the per-requirement check to `validate_requirements`:
a produced violation lands in the errors or warnings list by severity. -/
theorem c5_validator_none_container_vs_missing_path :
    (∀ (s p f : Option PDict) (r : Requirement),
      get_container s p f r.whereTag = none →
        checkRequirement s p f r =
          some ⟨r.whereTag, r.path, r.severity,
            "Container \x27" ++ whereName r.whereTag ++
              "\x27 is None; cannot check path \x27" ++ r.path ++ "\x27", r⟩) ∧
    (∀ (s p f : Option PDict) (r : Requirement) (c : PDict) (seg : String),
      get_container s p f r.whereTag = some c →
      get_path c r.path = .error (.missingKey r.path seg) →
        (r.required = false → checkRequirement s p f r = none) ∧
        (r.required = true →
          checkRequirement s p f r =
            some ⟨r.whereTag, r.path, r.severity,
              r.message.getD (strKeyError (pathErrMsg (.missingKey r.path seg))),
              r⟩)) ∧
    (∀ (s p f : Option PDict) (r : Requirement),
      validate_requirements s p f [r] =
        match checkRequirement s p f r with
        | none => ([], [])
        | some v => if r.severity = .error then ([v], []) else ([], [v])) := by
  refine ⟨?_, ?_, ?_⟩
  · intro s p f r h
    simp only [checkRequirement, h]
  · intro s p f r c seg hc hp
    constructor
    · intro hreq
      simp only [checkRequirement, hc, hp, hreq]
      rfl
    · intro hreq
      simp only [checkRequirement, hc, hp, hreq]
      rfl
  · intro s p f r
    simp only [validate_requirements, List.foldl_cons, List.foldl_nil]
    cases checkRequirement s p f r with
    | none => rfl
    | some v =>
      by_cases hsev : r.severity = .error <;> simp [hsev]

/-- C5 witness: a requirement on `params.spectral.radius`; with `params`
absent (None) even the not-required variant yields a violation, while with
`params = {}` the not-required variant is skipped and the required variant
yields the missing-key violation. -/
theorem c5_validator_none_container_vs_missing_path_witness :
    (checkRequirement none none none
        ⟨.params, "spectral.radius", false, none, none, none, .error⟩ =
      some ⟨.params, "spectral.radius", .error,
        "Container \x27params\x27 is None; cannot check path \x27spectral.radius\x27",
        ⟨.params, "spectral.radius", false, none, none, none, .error⟩⟩) ∧
    (checkRequirement none (some []) none
        ⟨.params, "spectral.radius", false, none, none, none, .error⟩ = none) ∧
    (checkRequirement none (some []) none
        ⟨.params, "spectral.radius", true, none, none, none, .error⟩ =
      some ⟨.params, "spectral.radius", .error,
        strKeyError (pathErrMsg (.missingKey "spectral.radius" "spectral")),
        ⟨.params, "spectral.radius", true, none, none, none, .error⟩⟩) :=
  ⟨c5_validator_none_container_vs_missing_path.1 none none none
      ⟨.params, "spectral.radius", false, none, none, none, .error⟩ rfl,
    (c5_validator_none_container_vs_missing_path.2.1 none (some []) none
      ⟨.params, "spectral.radius", false, none, none, none, .error⟩ [] "spectral"
      rfl rfl).1 rfl,
    (c5_validator_none_container_vs_missing_path.2.1 none (some []) none
      ⟨.params, "spectral.radius", true, none, none, none, .error⟩ [] "spectral"
      rfl rfl).2 rfl⟩

/-- C2: on a checked invocation (counter below `max_checks`) with a non-empty
combined requirement list, at least one error-severity violation and
`raise_on_error` true, the wrapper raises the aggregated `RequirementError`
(whose text begins with the header "Requirements not satisfied") without ever
invoking the wrapped step — the outcome is the same for every wrapped step —
and the private counter is incremented exactly once, as it is on every
invocation regardless of outcome (third conjunct). -/
theorem c2_requirements_check_fail_fast (step_reqs : List Requirement)
    (cfg : ReqCheckCfg) (call_count : ℕ) (state forcing : Option PDict)
    (params : PDict) (dt : ℚ)
    (hcount : (call_count : ℤ) < cfg.max_checks)
    (hreqs : (step_reqs ++ cfg.extra).isEmpty = false)
    (herr : (validate_requirements state (some params) forcing
        (step_reqs ++ cfg.extra)).1.isEmpty = false)
    (hraise : cfg.raise_on_error = true) :
    (∀ step : RStepFn,
      with_requirements_check step step_reqs cfg call_count state forcing params dt =
        (call_count + 1,
          .error ⟨(validate_requirements state (some params) forcing
            (step_reqs ++ cfg.extra)).1⟩)) ∧
    (∃ rest, (RequirementError.mk (validate_requirements state (some params)
        forcing (step_reqs ++ cfg.extra)).1).msg =
      "Requirements not satisfied:\n" ++ rest) ∧
    (∀ (step : RStepFn) (sr : List Requirement) (cfg' : ReqCheckCfg) (n : ℕ)
        (s f : Option PDict) (p : PDict) (d : ℚ),
      (with_requirements_check step sr cfg' n s f p d).1 = n + 1) := by
  refine ⟨?_, ⟨_, rfl⟩, ?_⟩
  · intro step
    simp only [with_requirements_check, if_pos hcount, hreqs, herr, hraise,
      Bool.not_false, Bool.true_and, Bool.and_true, if_false, Bool.false_eq_true,
      if_true]
  · intro step sr cfg' n s f p d
    simp only [with_requirements_check]
    split
    · split
      · rfl
      · split
        · rfl
        · rfl
    · rfl

/-- C2 witness: the spec example — a step requiring `params.spectral.radius`
(numeric, positive), called with `params = {}` on the first call with
`raise_on_error = True` — raises the aggregated error and never calls the
step. -/
theorem c2_requirements_check_fail_fast_witness :
    ((0 : ℤ) < (ReqCheckCfg.mk [] 3 true true).max_checks) ∧
    with_requirements_check rstepId [radiusReq] (ReqCheckCfg.mk [] 3 true true)
        0 (some []) (some []) [] 1 =
      (1, .error ⟨(validate_requirements (some []) (some []) (some [])
        ([radiusReq] ++ [])).1⟩) :=
  ⟨by norm_num,
    (c2_requirements_check_fail_fast [radiusReq] (ReqCheckCfg.mk [] 3 true true)
      0 (some []) (some []) [] 1 (by norm_num) rfl rfl rfl).1 rstepId⟩

/-- C4: with `raise_on_error = False` and `max_checks = 2`, a call whose
counter is below 2 and whose validation finds errors appends exactly one
record — holding that call's own errors and warnings — under
`gcmi_requirements` of that call's diag (first conjunct; the second makes
"exactly one" explicit when the inner step's diag lacks the key), while every
call with counter `≥ 2` performs no retrieval or validation and returns the
inner step's diag unchanged, adding no `gcmi_requirements` key (third
conjunct). -/
theorem c4_requirements_check_two_then_none (cfg : ReqCheckCfg)
    (hmax : cfg.max_checks = 2) (hraise : cfg.raise_on_error = false)
    (hrec : cfg.record_warnings = true) :
    (∀ (step : RStepFn) (step_reqs : List Requirement) (call_count : ℕ)
        (state forcing : Option PDict) (params : PDict) (dt : ℚ),
      call_count < 2 →
      (step_reqs ++ cfg.extra).isEmpty = false →
      (validate_requirements state (some params) forcing
          (step_reqs ++ cfg.extra)).1.isEmpty = false →
      with_requirements_check step step_reqs cfg call_count state forcing params dt =
        (call_count + 1,
          .ok ((step state forcing params dt).1,
            append_req_record (step state forcing params dt).2.1
              (mkReqRecord call_count cfg (step_reqs ++ cfg.extra)
                (validate_requirements state (some params) forcing
                  (step_reqs ++ cfg.extra)).1
                (validate_requirements state (some params) forcing
                  (step_reqs ++ cfg.extra)).2),
            (step state forcing params dt).2.2))) ∧
    (∀ (dg : Diag) (rec : ReqRecord),
      dg.gcmi_requirements = none →
        (append_req_record dg rec).gcmi_requirements = some [rec]) ∧
    (∀ (step : RStepFn) (step_reqs : List Requirement) (call_count : ℕ)
        (state forcing : Option PDict) (params : PDict) (dt : ℚ),
      2 ≤ call_count →
      with_requirements_check step step_reqs cfg call_count state forcing params dt =
        (call_count + 1,
          .ok ((step state forcing params dt).1,
            (step state forcing params dt).2.1,
            (step state forcing params dt).2.2))) := by
  refine ⟨?_, ?_, ?_⟩
  · intro step step_reqs call_count state forcing params dt hlt hreqs herr
    have hcount : (call_count : ℤ) < cfg.max_checks := by
      rw [hmax]
      exact_mod_cast hlt
    simp only [with_requirements_check, if_pos hcount, hreqs, herr, hraise, hrec,
      Bool.not_false, Bool.and_false, Bool.false_eq_true, if_false,
      Bool.true_and, Bool.true_or, if_true]
  · intro dg rec hnone
    simp only [append_req_record, hnone]
    rfl
  · intro step step_reqs call_count state forcing params dt hge
    have hcount : ¬ ((call_count : ℤ) < cfg.max_checks) := by
      rw [hmax]
      push_neg
      exact_mod_cast hge
    simp only [with_requirements_check, if_neg hcount]

/-- C4 witness: a failing required requirement with `max_checks = 2`,
`raise_on_error = False`: call 0 records one `gcmi_requirements` entry, call 2
returns the inner diag untouched. -/
theorem c4_requirements_check_two_then_none_witness :
    ((0 : ℕ) < 2) ∧
    (with_requirements_check rstepId [radiusReq] (ReqCheckCfg.mk [] 2 false true)
        0 (some []) (some []) [] 1 =
      (1, .ok ((some []),
        append_req_record emptyDiag
          (mkReqRecord 0 (ReqCheckCfg.mk [] 2 false true) ([radiusReq] ++ [])
            (validate_requirements (some []) (some []) (some [])
              ([radiusReq] ++ [])).1
            (validate_requirements (some []) (some []) (some [])
              ([radiusReq] ++ [])).2),
        []))) ∧
    (with_requirements_check rstepId [radiusReq] (ReqCheckCfg.mk [] 2 false true)
        2 (some []) (some []) [] 1 = (3, .ok ((some []), emptyDiag, []))) :=
  ⟨by norm_num,
    (c4_requirements_check_two_then_none (ReqCheckCfg.mk [] 2 false true)
      rfl rfl rfl).1 rstepId [radiusReq] 0 (some []) (some []) [] 1
      (by norm_num) rfl rfl,
    (c4_requirements_check_two_then_none (ReqCheckCfg.mk [] 2 false true)
      rfl rfl rfl).2.2 rstepId [radiusReq] 2 (some []) (some []) [] 1
      (by norm_num)⟩

/-- C10: on a checked invocation with `raise_on_error` true whose validation
yields no error-severity violations but at least one warning, no exception is
raised: the wrapped step runs normally and (with `record_warnings` true) the
warnings are recorded in the diag under `gcmi_requirements`. -/
theorem c10_requirements_check_warnings_no_raise (step : RStepFn)
    (step_reqs : List Requirement) (cfg : ReqCheckCfg) (call_count : ℕ)
    (state forcing : Option PDict) (params : PDict) (dt : ℚ)
    (hcount : (call_count : ℤ) < cfg.max_checks)
    (hreqs : (step_reqs ++ cfg.extra).isEmpty = false)
    (hnoerr : (validate_requirements state (some params) forcing
        (step_reqs ++ cfg.extra)).1 = [])
    (hwarn : (validate_requirements state (some params) forcing
        (step_reqs ++ cfg.extra)).2.isEmpty = false)
    (hraise : cfg.raise_on_error = true)
    (hrec : cfg.record_warnings = true) :
    with_requirements_check step step_reqs cfg call_count state forcing params dt =
      (call_count + 1,
        .ok ((step state forcing params dt).1,
          append_req_record (step state forcing params dt).2.1
            (mkReqRecord call_count cfg (step_reqs ++ cfg.extra)
              []
              (validate_requirements state (some params) forcing
                (step_reqs ++ cfg.extra)).2),
          (step state forcing params dt).2.2)) := by
  simp only [with_requirements_check, if_pos hcount, hreqs, hnoerr, hwarn, hraise,
    hrec, Bool.not_false, Bool.not_true, List.isEmpty_nil, Bool.false_and,
    Bool.false_eq_true, if_false, Bool.true_and, Bool.or_true, Bool.false_or,
    if_true]

/-- C10 witness: a warn-severity requirement on a missing `params` path with
`raise_on_error = True` does not raise; the warning is recorded. -/
theorem c10_requirements_check_warnings_no_raise_witness :
    ((0 : ℤ) < 3) ∧
    (with_requirements_check rstepId
        [⟨.params, "spectral.radius", true, none, none, none, .warn⟩]
        (ReqCheckCfg.mk [] 3 true true) 0 (some []) (some []) [] 1 =
      (1, .ok ((some []),
        append_req_record emptyDiag
          (mkReqRecord 0 (ReqCheckCfg.mk [] 3 true true)
            ([⟨.params, "spectral.radius", true, none, none, none, .warn⟩] ++ [])
            []
            (validate_requirements (some []) (some []) (some [])
              ([⟨.params, "spectral.radius", true, none, none, none, .warn⟩] ++ [])).2),
        []))) :=
  ⟨by norm_num,
    c10_requirements_check_warnings_no_raise rstepId
      [⟨.params, "spectral.radius", true, none, none, none, .warn⟩]
      (ReqCheckCfg.mk [] 3 true true) 0 (some []) (some []) [] 1
      (by norm_num) rfl rfl rfl rfl rfl⟩

/-- The registry walk stops at a missing back-reference. -/
theorem get_requirements_go_none (heap : List Link) (fuel : ℕ) (seen : List ℕ)
    (acc : List Requirement) :
    get_requirements_go heap fuel none seen acc = acc := by
  cases fuel <;> rfl

/-- The registry walk stops at an already-visited link (cycle guard). -/
theorem get_requirements_go_seen (heap : List Link) (fuel : ℕ) (i : ℕ)
    (seen : List ℕ) (acc : List Requirement) (h : seen.contains i = true) :
    get_requirements_go heap fuel (some i) seen acc = acc := by
  cases fuel with
  | zero => rfl
  | succ m => simp only [get_requirements_go, h, if_true]

/-- The registry walk stops at a dangling reference (a link absent from the
heap; unreachable for genuine Python object references). -/
theorem get_requirements_go_dangling (heap : List Link) (fuel : ℕ) (i : ℕ)
    (seen : List ℕ) (acc : List Requirement) (h : lookupLink heap i = none) :
    get_requirements_go heap fuel (some i) seen acc = acc := by
  cases fuel with
  | zero => rfl
  | succ m =>
    simp only [get_requirements_go, h]
    split <;> rfl

/-- One iteration of the registry walk on a fresh, resolvable link. -/
theorem get_requirements_go_step (heap : List Link) (fuel : ℕ) (i : ℕ)
    (seen : List ℕ) (acc : List Requirement) (l : Link)
    (hseen : seen.contains i = false) (hlook : lookupLink heap i = some l) :
    get_requirements_go heap (fuel + 1) (some i) seen acc =
      get_requirements_go heap fuel l.wrappedId (i :: seen)
        (acc ++ l.gcmi_requires) := by
  simp only [get_requirements_go, hseen, hlook, Bool.false_eq_true, if_false]

/-- The registry walk along a chain of pairwise-distinct, resolvable links
whose terminal back-reference is absent, already visited, or dangling
collects exactly the concatenation of the attached requirement lists, in
chain order. -/
theorem get_requirements_go_chain (heap : List Link) :
    ∀ (chain : List Link) (l : Link) (t : Option ℕ) (seen : List ℕ)
      (acc : List Requirement) (fuel : ℕ),
      (l :: chain).length ≤ fuel →
      (∀ x ∈ l :: chain, lookupLink heap x.id = some x) →
      (∀ x ∈ l :: chain, seen.contains x.id = false) →
      (l :: chain).Pairwise (fun a b => a.id ≠ b.id) →
      isChain (l :: chain) t →
      (∀ j, t = some j → seen.contains j = true ∨ j ∈ (l :: chain).map Link.id ∨
        lookupLink heap j = none) →
      get_requirements_go heap fuel (some l.id) seen acc =
        acc ++ ((l :: chain).map Link.gcmi_requires).flatten := by
  intro chain
  induction chain with
  | nil =>
    intro l t seen acc fuel hfuel hlook hseen _hpw hchain hterm
    obtain ⟨m, rfl⟩ : ∃ m, fuel = m + 1 := by
      cases fuel with
      | zero => simp at hfuel
      | succ m => exact ⟨m, rfl⟩
    rw [get_requirements_go_step heap m l.id seen acc l
      (hseen l (List.mem_singleton_self l)) (hlook l (List.mem_singleton_self l))]
    have hlast : l.wrappedId = t := hchain
    rw [hlast]
    have hflat : (([l] : List Link).map Link.gcmi_requires).flatten =
        l.gcmi_requires := by
      simp
    rw [hflat]
    cases t with
    | none => exact get_requirements_go_none heap m _ _
    | some j =>
      rcases hterm j rfl with hj | hj | hj
      · exact get_requirements_go_seen heap m j _ _ (by
          simp only [List.contains_cons, hj, Bool.or_true])
      · have : j = l.id := by simpa using hj
        exact get_requirements_go_seen heap m j _ _ (by
          simp [List.contains_cons, this])
      · exact get_requirements_go_dangling heap m j _ _ hj
  | cons l2 rest ih =>
    intro l t seen acc fuel hfuel hlook hseen hpw hchain hterm
    obtain ⟨m, rfl⟩ : ∃ m, fuel = m + 1 := by
      cases fuel with
      | zero => simp at hfuel
      | succ m => exact ⟨m, rfl⟩
    rw [get_requirements_go_step heap m l.id seen acc l
      (hseen l (List.mem_cons_self l _)) (hlook l (List.mem_cons_self l _))]
    have hstep : l.wrappedId = some l2.id := hchain.1
    rw [hstep]
    have hne : ∀ x ∈ l2 :: rest, x.id ≠ l.id := by
      intro x hx
      exact (List.rel_of_pairwise_cons hpw hx).symm
    have hres := ih l2 t (l.id :: seen) (acc ++ l.gcmi_requires) m
      (by simpa using Nat.le_of_succ_le_succ hfuel)
      (fun x hx => hlook x (List.mem_cons_of_mem l hx))
      (fun x hx => by
        simp only [List.contains_cons]
        rw [hseen x (List.mem_cons_of_mem l hx)]
        simp only [Bool.or_false]
        exact beq_eq_false_iff_ne.mpr (hne x hx))
      (List.Pairwise.of_cons hpw)
      hchain.2
      (by
        intro j hj
        rcases hterm j hj with h | h | h
        · exact Or.inl (by simp only [List.contains_cons, h, Bool.or_true])
        · rcases List.mem_cons.mp h with h' | h'
          · exact Or.inl (by
              simp only [List.map_cons, List.mem_cons] at h ⊢
              simp [List.contains_cons, h'])
          · exact Or.inr (Or.inl h')
        · exact Or.inr (Or.inr h))
    rw [hres]
    simp [List.append_assoc]

/-- C6: attaching requirements is additive (a second attachment appends after
the first), and retrieval walks the wrapped-by chain from the given callable,
collecting each link's attached requirements in encounter order (outer
first), stopping when the back-reference is absent, dangling, or already
visited (identity cycle guard), and never deduplicating — the result is the
plain concatenation of the per-link declaration lists. -/
theorem c6_registry_attach_additive_and_walk :
    (∀ (l : Link) (r1 r2 : List Requirement),
      requires r2 (requires r1 l) =
        ⟨l.id, l.gcmi_requires ++ (r1 ++ r2), l.wrappedId⟩) ∧
    (∀ (heap : List Link) (l : Link) (chain : List Link) (t : Option ℕ),
      (∀ x ∈ l :: chain, lookupLink heap x.id = some x) →
      (l :: chain).Pairwise (fun a b => a.id ≠ b.id) →
      isChain (l :: chain) t →
      (t = none ∨ (∃ j, t = some j ∧ (j ∈ (l :: chain).map Link.id ∨
        lookupLink heap j = none))) →
      get_requirements heap l.id =
        ((l :: chain).map Link.gcmi_requires).flatten) := by
  constructor
  · intro l r1 r2
    cases l
    simp [requires, List.append_assoc]
  · intro heap l chain t hlook hpw hchain hterm
    have hnd : ((l :: chain).map Link.id).Nodup := List.pairwise_map.mpr hpw
    have hsub : ((l :: chain).map Link.id) ⊆ heap.map Link.id := by
      intro j hj
      obtain ⟨x, hx, rfl⟩ := List.mem_map.1 hj
      exact List.mem_map.2 ⟨x, List.mem_of_find?_eq_some (hlook x hx), rfl⟩
    have hlen : (l :: chain).length ≤ heap.length + 1 := by
      have h1 : ((l :: chain).map Link.id).toFinset.card =
          ((l :: chain).map Link.id).length := List.toFinset_card_of_nodup hnd
      have h2 : ((l :: chain).map Link.id).toFinset ⊆
          (heap.map Link.id).toFinset := by
        intro a ha
        rw [List.mem_toFinset] at ha ⊢
        exact hsub ha
      have h3 := Finset.card_le_card h2
      have h4 := (heap.map Link.id).toFinset_card_le
      simp only [List.length_map] at h1 h4 ⊢
      omega
    exact get_requirements_go_chain heap chain l t [] [] (heap.length + 1)
      hlen hlook (fun x _ => rfl) hpw hchain
      (fun j hj => by
        rcases hterm with h | ⟨j', hj', hcase⟩
        · rw [h] at hj
          cases hj
        · rw [hj'] at hj
          cases hj
          exact Or.inr hcase)

/-- C6 witness: a three-link straight chain with the same requirement
declared at the outer and inner links retrieves it twice (no deduplication),
and a two-link cyclic chain terminates by the identity cycle guard with one
collection per link. -/
theorem c6_registry_attach_additive_and_walk_witness :
    (requires [wreqA] (requires [wreqA] (⟨7, [], none⟩ : Link)) =
      ⟨7, [] ++ ([wreqA] ++ [wreqA]), none⟩) ∧
    get_requirements wheapStraight 0 =
      (([⟨0, [wreqA], some 1⟩, ⟨1, [], some 2⟩, ⟨2, [wreqA], none⟩] :
        List Link).map Link.gcmi_requires).flatten ∧
    get_requirements wheapCycle 5 =
      (([⟨5, [wreqA], some 6⟩, ⟨6, [wreqA], some 5⟩] :
        List Link).map Link.gcmi_requires).flatten ∧
    (([⟨0, [wreqA], some 1⟩, ⟨1, [], some 2⟩, ⟨2, [wreqA], none⟩] :
      List Link).map Link.gcmi_requires).flatten = [wreqA, wreqA] := by
  refine ⟨c6_registry_attach_additive_and_walk.1 ⟨7, [], none⟩ [wreqA] [wreqA],
    ?_, ?_, by simp⟩
  · refine c6_registry_attach_additive_and_walk.2 wheapStraight
      ⟨0, [wreqA], some 1⟩ [⟨1, [], some 2⟩, ⟨2, [wreqA], none⟩] none
      ?_ ?_ ?_ (Or.inl rfl)
    · intro x hx
      simp only [List.mem_cons, List.not_mem_nil, or_false] at hx
      rcases hx with rfl | rfl | rfl <;> rfl
    · norm_num [List.pairwise_cons]
    · exact ⟨rfl, rfl, rfl⟩
  · refine c6_registry_attach_additive_and_walk.2 wheapCycle
      ⟨5, [wreqA], some 6⟩ [⟨6, [wreqA], some 5⟩] (some 5)
      ?_ ?_ ?_ (Or.inr ⟨5, rfl, Or.inl (by simp)⟩)
    · intro x hx
      simp only [List.mem_cons, List.not_mem_nil, or_false] at hx
      rcases hx with rfl | rfl <;> rfl
    · norm_num [List.pairwise_cons]
    · exact ⟨rfl, rfl⟩

/-- C7 (amended): the step-calling machinery normalizes the diagnostics
before anything is attached — an absent (None) diag is replaced by an empty
mapping, while a non-mapping diag is wrapped as the singleton mapping
`{"diag": value}` (not replaced by an empty mapping) — so the value handed
onward is always a mapping. -/
theorem c7_bind_step_diag_normalization :
    (∀ (S F : Type) (step : S → F → PDict → ℚ → StepOut S) (s : S) (f : F)
        (p : PDict) (dt : ℚ) (st : S) (dg : DiagVal),
      step s f p dt = .pair st dg →
      bind_step_call step s f p dt = .ok (st, normalize_diag dg)) ∧
    normalize_diag .pyNone = [] ∧
    (∀ d, normalize_diag (.pyDict d) = d) ∧
    (∀ v, normalize_diag (.nonDict v) = [("diag", v)]) := by
  refine ⟨?_, rfl, fun d => rfl, fun v => rfl⟩
  intro S F step s f p dt st dg h
  simp only [bind_step_call, h]

/-- C7 witness: a step returning `None` diagnostics is normalized to the
empty mapping. -/
theorem c7_bind_step_diag_normalization_witness :
    ((fun (_ : Unit) (_ : Unit) (_ : PDict) (_ : ℚ) =>
        StepOut.pair () DiagVal.pyNone) () () [] 1 =
      StepOut.pair () DiagVal.pyNone) ∧
    bind_step_call
        (fun (_ : Unit) (_ : Unit) (_ : PDict) (_ : ℚ) =>
          StepOut.pair () DiagVal.pyNone) () () [] 1 =
      .ok ((), normalize_diag DiagVal.pyNone) :=
  ⟨rfl,
    c7_bind_step_diag_normalization.1 Unit Unit
      (fun _ _ _ _ => StepOut.pair () DiagVal.pyNone) () () [] 1 ()
      DiagVal.pyNone rfl⟩

/-- C7 counterexample: a step returning the non-mapping diagnostics value `5`
is normalized to `{"diag": 5}`, which is not the empty mapping the claim
promises. -/
theorem c7_bind_step_diag_normalization_cex :
    bind_step_call
        (fun (_ : Unit) (_ : Unit) (_ : PDict) (_ : ℚ) =>
          StepOut.pair () (DiagVal.nonDict (.vint 5))) () () [] 1 =
      .ok ((), [("diag", Value.vint 5)]) ∧
    ([("diag", Value.vint 5)] : PDict) ≠ [] := by
  exact ⟨rfl, by simp⟩

/-- C8 (amended): per iteration and observer, the loop attempts the minimal
call first; if it succeeds no retry happens, if it raises `TypeError` (the
class raised by a named-parameter signature mismatch, but also by any
`TypeError` from the observer's body) the loop retries once with the richer
call, and an exception of any other class propagates — out of the whole run
loop (second conjunct). -/
theorem c8_observer_fallback_on_typeerror :
    (∀ (S : Type) (h : Hook S) (k : ℕ) (st : S) (dg : Diag) (p : PDict),
      (callHookMinimal h k st dg = .ok () →
        invokeHook h k st dg p = .ok ()) ∧
      (∀ m, callHookMinimal h k st dg = .error (.typeError m) →
        invokeHook h k st dg p = callHookRich h k st dg p) ∧
      (∀ nm m, callHookMinimal h k st dg = .error (.otherError nm m) →
        invokeHook h k st dg p = .error (.otherError nm m))) ∧
    (∀ (S F : Type) (step : StepFn S F) (init : S) (params : PDict)
        (fstream : ℕ → F) (h : Hook S) (n : ℕ) (dur : ℕ → ℚ) (nm m : String),
      h.requiresExtra = false →
      (∀ k s d, h.body k s d none = .error (.otherError nm m)) →
      run_fn step init params fstream [h] (n + 1) dur =
        .error (.otherError nm m)) := by
  constructor
  · intro S h k st dg p
    refine ⟨?_, ?_, ?_⟩
    · intro hok
      simp only [invokeHook, hok]
    · intro m hm
      simp only [invokeHook, hm]
    · intro nm m hm
      simp only [invokeHook, hm]
  · intro S F step init params fstream h n dur nm m hreq hbody
    simp only [run_fn, run_fn_loop, runHooks, invokeHook, callHookMinimal,
      hreq, hbody, Bool.false_eq_true, if_false]

/-- C8 witness: a signature-mismatch observer is retried with the richer
call, and an observer raising `ValueError` propagates it unswallowed, also
out of a one-iteration run. -/
theorem c8_observer_fallback_on_typeerror_witness :
    (callHookMinimal wHookReq 0 () emptyDiag =
      .error (.typeError "missing required keyword-only arguments")) ∧
    invokeHook wHookReq 0 () emptyDiag [] = callHookRich wHookReq 0 () emptyDiag [] ∧
    (callHookMinimal wHookVal 0 () emptyDiag =
      .error (.otherError "ValueError" "bad")) ∧
    invokeHook wHookVal 0 () emptyDiag [] = .error (.otherError "ValueError" "bad") ∧
    run_fn idStepU () [] (fun _ => ()) [wHookVal] 1 (fun _ => 0) =
      .error (.otherError "ValueError" "bad") :=
  ⟨rfl,
    (c8_observer_fallback_on_typeerror.1 Unit wHookReq 0 () emptyDiag []).2.1
      "missing required keyword-only arguments" rfl,
    rfl,
    (c8_observer_fallback_on_typeerror.1 Unit wHookVal 0 () emptyDiag []).2.2
      "ValueError" "bad" rfl,
    c8_observer_fallback_on_typeerror.2 Unit Unit idStepU () []
      (fun _ => ()) wHookVal 0 (fun _ => 0) "ValueError" "bad" rfl
      (fun _ _ _ => rfl)⟩

/-- C8 counterexample: an observer whose minimal call raises `TypeError` from
its own body — not a signature mismatch (`requiresExtra = false`) — is
nonetheless retried with the richer call, and the exception is swallowed
(the run completes successfully), refuting "retries only on a signature
mismatch / any other exception propagates unswallowed" as stated. -/
theorem c8_observer_fallback_on_typeerror_cex :
    tErrHook.requiresExtra = false ∧
    callHookMinimal tErrHook 0 () emptyDiag = .error (.typeError "boom") ∧
    invokeHook tErrHook 0 () emptyDiag [] = .ok () ∧
    run_fn idStepU () [] (fun _ => ()) [tErrHook] 1 (fun _ => 0) =
      .ok ((), ⟨[0], some (attachStepTiming emptyDiag 0)⟩, []) :=
  ⟨rfl, rfl, rfl, rfl⟩

/-- The substepping loop leaves the params dict unchanged whenever each inner
call does. -/
theorem cflSubstepLoop_params {S F : Type} (step : StepFn S F) (f : F) (d : ℚ)
    (hstep : ∀ s fo p dt, (step s fo p dt).2.2 = p) :
    ∀ (n : ℕ) (st : S) (dg : Diag) (p : PDict),
      (cflSubstepLoop step f d n st dg p).2.2 = p := by
  intro n
  induction n with
  | zero => intro st dg p; rfl
  | succ n ih =>
    intro st dg p
    show (cflSubstepLoop step f d n (step st f p d).1 (step st f p d).2.1
      (step st f p d).2.2).2.2 = p
    rw [ih]
    exact hstep st f p d

/-- The run loop returns the params dict unchanged whenever each step call
does. -/
theorem run_fn_loop_params {S F : Type} (step : StepFn S F)
    (hooks : List (Hook S)) (fstream : ℕ → F) (dt : ℚ) (dur : ℕ → ℚ)
    (hstep : ∀ s fo p d, (step s fo p d).2.2 = p) :
    ∀ (n k : ℕ) (st : S) (p : PDict) (times : List ℚ) (last : Option Diag)
      (out : S × Report × PDict),
      run_fn_loop step hooks fstream dt dur n k st p times last = .ok out →
      out.2.2 = p := by
  intro n
  induction n with
  | zero =>
    intro k st p times last out h
    simp only [run_fn_loop, Except.ok.injEq] at h
    rw [← h]
  | succ n ih =>
    intro k st p times last out h
    simp only [run_fn_loop] at h
    split at h
    · exact absurd h (by simp)
    · have := ih (k + 1) (step st (fstream k) p dt).1
        (step st (fstream k) p dt).2.2 (times ++ [dur k])
        (some (attachStepTiming (step st (fstream k) p dt).2.1 (dur k))) out h
      rw [this]
      exact hstep st (fstream k) p dt

/-- C9: no middleware layer and no run loop mutates the shared params dict:
whenever the wrapped (inner) step leaves it unchanged, the CFL guard (both
branches), the requirements-check wrapper, the transform middlewares
(flux limiter, positivity — whether or not the operator fails), and the whole
run loop return the params dict exactly as given. -/
theorem c9_params_left_unmutated :
    (∀ (S F : Type) (step : StepFn S F) (cb : S → PDict → ℚ) (cfl_max : ℚ),
      (∀ s f p dt, (step s f p dt).2.2 = p) →
      ∀ s f p dt, (with_cfl_guard cfl_max cb step s f p dt).2.2 = p) ∧
    (∀ (step : RStepFn) (step_reqs : List Requirement) (cfg : ReqCheckCfg),
      (∀ s f p dt, (step s f p dt).2.2 = p) →
      ∀ n s f p dt out,
        (with_requirements_check step step_reqs cfg n s f p dt).2 = .ok out →
        out.2.2 = p) ∧
    (∀ (S F : Type) (scheme : String) (vars : List String) (step : StepFn S F),
      (∀ s f p dt, (step s f p dt).2.2 = p) →
      ∀ s f p dt, (with_flux_limiter scheme vars step s f p dt).2.2 = p) ∧
    (∀ (F : Type) (clampOp : Value → ℚ → Except String Value)
        (vars : List String) (lower : ℚ) (conserve : Option String)
        (step : StepFn PDict F),
      (∀ s f p dt, (step s f p dt).2.2 = p) →
      ∀ s f p dt,
        (with_positivity clampOp vars lower conserve step s f p dt).2.2 = p) ∧
    (∀ (S F : Type) (step : StepFn S F),
      (∀ s f p dt, (step s f p dt).2.2 = p) →
      ∀ init params fstream hooks n dur out,
        run_fn step init params fstream hooks n dur = .ok out →
        out.2.2 = params) := by
  refine ⟨?_, ?_, ?_, ?_, ?_⟩
  · intro S F step cb cfl_max hstep s f p dt
    simp only [with_cfl_guard]
    split <;> split
    all_goals
      first
        | exact hstep s f p dt
        | exact cflSubstepLoop_params step f _ hstep _ s emptyDiag p
  · intro step step_reqs cfg hstep n s f p dt out hout
    simp only [with_requirements_check] at hout
    split at hout
    · split at hout
      · simp only [Except.ok.injEq] at hout
        rw [← hout]
        exact hstep s f p dt
      · split at hout
        · exact absurd hout (by simp)
        · simp only [Except.ok.injEq] at hout
          rw [← hout]
          exact hstep s f p dt
    · simp only [Except.ok.injEq] at hout
      rw [← hout]
      exact hstep s f p dt
  · intro S F scheme vars step hstep s f p dt
    exact hstep s f p dt
  · intro F clampOp vars lower conserve step hstep s f p dt
    exact hstep s f p dt
  · intro S F step hstep init params fstream hooks n dur out hout
    exact run_fn_loop_params step hooks fstream (resolve_dt params) dur hstep
      n 0 init params [] none out hout

/-- C9 witness: with identity inner steps, each wrapper and a one-iteration
run return the params dict `{"a": 1}` unchanged. -/
theorem c9_params_left_unmutated_witness :
    (with_cfl_guard 1 (fun _ _ => (0 : ℚ)) idStepU () () [("a", .vint 1)] 1).2.2 =
      [("a", Value.vint 1)] ∧
    (with_requirements_check rstepId [] (ReqCheckCfg.mk [] 3 true true) 0
        (some []) (some []) [("a", .vint 1)] 1).2 =
      .ok ((some []), emptyDiag, [("a", Value.vint 1)]) ∧
    (with_flux_limiter "mc" ["q", "T"] idStepU () () [("a", .vint 1)] 1).2.2 =
      [("a", Value.vint 1)] ∧
    (with_positivity (fun v _ => .ok v) ["q"] 0 none pdStepId [] ()
        [("a", .vint 1)] 1).2.2 = [("a", Value.vint 1)] ∧
    (∀ out, run_fn idStepU () [("a", .vint 1)] (fun _ => ()) [] 1 (fun _ => 0) =
      .ok out → out.2.2 = [("a", Value.vint 1)]) :=
  ⟨c9_params_left_unmutated.1 Unit Unit idStepU (fun _ _ => 0) 1
      (fun _ _ _ _ => rfl) () () [("a", .vint 1)] 1,
    rfl,
    c9_params_left_unmutated.2.2.1 Unit Unit "mc" ["q", "T"] idStepU
      (fun _ _ _ _ => rfl) () () [("a", .vint 1)] 1,
    c9_params_left_unmutated.2.2.2.1 Unit (fun v _ => .ok v) ["q"] 0 none
      pdStepId (fun _ _ _ _ => rfl) [] () [("a", .vint 1)] 1,
    fun out h =>
      c9_params_left_unmutated.2.2.2.2 Unit Unit idStepU (fun _ _ _ _ => rfl)
        () [("a", .vint 1)] (fun _ => ()) [] 1 (fun _ => 0) out h⟩
